import Mathlib

/-!
Verification development for the gorecipes_v2 recipe backend.

The development shallowly embeds the recipe aggregate persistence layer
(`store` package: find-or-create resolvers, CreateRecipe, GetRecipeByID,
UpdateRecipe, DeleteRecipe) together with the PostgreSQL schema
(`database_design.sql`) it runs against.  Tables are lists of row
structures; UUIDs are modelled by a fresh-id counter in the database
state; CURRENT_TIMESTAMP is a logical clock field.  A transaction is a
snapshot of the state: the Go code runs every statement of an operation
inside one transaction and rolls back (via the deferred Rollback) on any
error, so an operation either returns the committed snapshot or the
untouched original state.  Storage calls that can fail because of a
concurrent writer (the INSERT inside each find-or-create resolver) are
parameterised by the set of names concurrently inserted by other
transactions, which is exactly the condition under which the uniqueness
constraint of the reference table rejects the INSERT.
-/

deriving instance DecidableEq for Except

namespace GoRecipes

/-- Measurement system ENUM from the schema: CREATE TYPE measurement_system
AS ENUM (metric, imperial). -/
inductive MeasurementSystem where
  | metric
  | imperial
deriving DecidableEq, Repr

/-- Row of the recipes table.  total_time_minutes is a generated column and
is therefore not stored; see totalTimeMinutes below. -/
structure RecipeRow where
  id : Nat
  title : String
  description : Option String
  photoFilename : Option String
  serves : Option Int
  prepTimeMinutes : Option Int
  cookTimeMinutes : Option Int
  createdAt : Nat
  updatedAt : Nat
  createdBy : Option Nat
deriving DecidableEq, Repr

/-- SQL addition of two nullable integers: NULL whenever either operand is
NULL, the integer sum otherwise. -/
def sqlOptAdd (p c : Option Int) : Option Int :=
  match p, c with
  | some a, some b => some (a + b)
  | _, _ => none

/-- Generated column of the recipes table:
total_time_minutes INTEGER GENERATED ALWAYS AS
(prep_time_minutes + cook_time_minutes) STORED,
with SQL NULL-propagating addition. -/
def totalTimeMinutes (r : RecipeRow) : Option Int :=
  sqlOptAdd r.prepTimeMinutes r.cookTimeMinutes

/-- Row of the ingredients reference table (id, name UNIQUE, category). -/
structure IngredientRow where
  id : Nat
  name : String
  category : Option String
deriving DecidableEq, Repr

/-- Row of the measurement_units reference table. -/
structure UnitRow where
  id : Nat
  name : String
  abbreviation : Option String
  system : MeasurementSystem
  baseUnitId : Option Nat
  conversionFactor : Option ℚ
deriving DecidableEq, Repr

/-- Row of the tags reference table (id, name UNIQUE). -/
structure TagRow where
  id : Nat
  name : String
  description : Option String
  color : Option String
deriving DecidableEq, Repr

/-- Row of the recipe_ingredients junction table.  The surrogate id column
plays no role in the store logic and is omitted; the table carries
UNIQUE(recipe_id, ingredient_id). -/
structure RecipeIngredientRow where
  recipeId : Nat
  ingredientId : Nat
  quantity : Option ℚ
  unitId : Option Nat
  notes : Option String
  sortOrder : Int
deriving DecidableEq, Repr

/-- Row of the recipe_steps table, with UNIQUE(recipe_id, step_number). -/
structure RecipeStepRow where
  recipeId : Nat
  stepNumber : Int
  instruction : String
  durationMinutes : Option Int
  temperature : Option String
deriving DecidableEq, Repr

/-- Row of the recipe_tags link table, PRIMARY KEY (recipe_id, tag_id). -/
structure RecipeTagRow where
  recipeId : Nat
  tagId : Nat
deriving DecidableEq, Repr

/-- The durable database state: the five tables the store touches, the
fresh-id supply standing for uuid.New, and the logical clock standing for
CURRENT_TIMESTAMP. -/
structure DB where
  recipes : List RecipeRow
  ingredients : List IngredientRow
  units : List UnitRow
  tags : List TagRow
  recipeIngredients : List RecipeIngredientRow
  recipeSteps : List RecipeStepRow
  recipeTags : List RecipeTagRow
  nextId : Nat
  now : Nat
deriving DecidableEq, Repr

/-- models.RecipeIngredientRequest. -/
structure RecipeIngredientRequest where
  ingredientName : String
  quantity : Option ℚ
  unitName : Option String
  notes : Option String
  sortOrder : Int
deriving DecidableEq, Repr

/-- models.RecipeStepRequest. -/
structure RecipeStepRequest where
  stepNumber : Int
  instruction : String
  durationMinutes : Option Int
  temperature : Option String
deriving DecidableEq, Repr

/-- models.RecipeTagRequest. -/
structure RecipeTagRequest where
  name : String
deriving DecidableEq, Repr

/-- models.RecipeRequest. -/
structure RecipeRequest where
  title : String
  description : Option String
  photoFilename : Option String
  serves : Option Int
  prepTimeMinutes : Option Int
  cookTimeMinutes : Option Int
  createdBy : Option Nat
  ingredients : List RecipeIngredientRequest
  steps : List RecipeStepRequest
  tags : List RecipeTagRequest
deriving DecidableEq, Repr

/-- Unit snapshot embedded in an assembled recipe ingredient: the columns
mu.id, mu.name, mu.abbreviation, mu.system selected by GetRecipeByID. -/
structure UnitSnapshot where
  id : Nat
  name : String
  abbreviation : Option String
  system : MeasurementSystem
deriving DecidableEq, Repr

/-- models.RecipeIngredient as assembled by GetRecipeByID: junction
attributes joined with the ingredient name/category and the optional unit
snapshot (ing.Unit is set only when the scanned unit id was non-NULL). -/
structure AssembledIngredient where
  ingredientId : Nat
  ingredientName : String
  ingredientDescription : Option String
  quantity : Option ℚ
  notes : Option String
  sortOrder : Int
  unit : Option UnitSnapshot
deriving DecidableEq, Repr

/-- models.RecipeStep as scanned by GetRecipeByID (step_number,
instruction, duration_minutes, temperature). -/
structure AssembledStep where
  stepNumber : Int
  instruction : String
  durationMinutes : Option Int
  temperature : Option String
deriving DecidableEq, Repr

/-- models.Tag as scanned by GetRecipeByID (t.id, t.name). -/
structure AssembledTag where
  id : Nat
  name : String
deriving DecidableEq, Repr

/-- models.Recipe as returned by GetRecipeByID. -/
structure Recipe where
  id : Nat
  title : String
  description : Option String
  photoFilename : Option String
  serves : Option Int
  prepTimeMinutes : Option Int
  cookTimeMinutes : Option Int
  totalTimeMinutes : Option Int
  createdAt : Nat
  updatedAt : Nat
  createdBy : Option Nat
  ingredients : List AssembledIngredient
  steps : List AssembledStep
  tags : List AssembledTag
deriving DecidableEq, Repr

/-- Errors produced by the store layer.  The Go code builds them with
fmt.Errorf; the constructors record which message pattern was used, and
StoreErr.message reproduces the text the boundary layer matches on. -/
inductive StoreErr where
  | recipeNotFound (id : Nat)
  | recipeNotFoundForUpdate (id : Nat)
  | recipeNotFoundForDeletion (id : Nat)
  | uniqueViolation (constraintName : String)
  | queryFault (msg : String)
  | wrapped (ctx : String) (e : StoreErr)
deriving DecidableEq, Repr

/-- Names inserted into the three reference tables by transactions running
concurrently with the one under consideration.  The INSERT inside a
find-or-create resolver fails with a uniqueness violation exactly when the
missed name was concurrently created by another writer. -/
structure ConcurrentWrites where
  ingredientNames : List String
  unitNames : List String
  tagNames : List String
deriving DecidableEq, Repr

/-- Concurrent environment with no interleaved writers. -/
def noWriters : ConcurrentWrites := ⟨[], [], []⟩

/-- SELECT id FROM ingredients WHERE name = the given name. -/
def lookupIngredientId (db : DB) (name : String) : Option Nat :=
  (db.ingredients.find? (fun r => r.name == name)).map (fun r => r.id)

/-- SELECT id FROM measurement_units WHERE name = the given name. -/
def lookupUnitId (db : DB) (name : String) : Option Nat :=
  (db.units.find? (fun r => r.name == name)).map (fun r => r.id)

/-- SELECT id FROM tags WHERE name = the given name. -/
def lookupTagId (db : DB) (name : String) : Option Nat :=
  (db.tags.find? (fun r => r.name == name)).map (fun r => r.id)

/-- findOrCreateIngredient: look the name up in the transaction snapshot;
on a miss, INSERT INTO ingredients (id, name) with a fresh id.  The INSERT
is rejected by the ingredients name uniqueness constraint exactly when a
concurrent transaction created the same name; the Go code then returns the
wrapped Exec error (it does not re-read). -/
def findOrCreateIngredient (tx : DB) (conc : ConcurrentWrites) (name : String) :
    Except StoreErr (DB × Nat) :=
  match lookupIngredientId tx name with
  | some i => .ok (tx, i)
  | none =>
    if name ∈ conc.ingredientNames then
      .error (.wrapped ("failed to create new ingredient " ++ name)
        (.uniqueViolation "ingredients_name_key"))
    else
      .ok ({ tx with
              ingredients := tx.ingredients ++ [⟨tx.nextId, name, none⟩],
              nextId := tx.nextId + 1 }, tx.nextId)

/-- findOrCreateMeasurementUnit: lookup by name; on a miss,
INSERT INTO measurement_units (id, name, system) VALUES (fresh, name,
metric) — the insert supplies only the name and the constant system
metric, all other columns default to NULL. -/
def findOrCreateMeasurementUnit (tx : DB) (conc : ConcurrentWrites) (name : String) :
    Except StoreErr (DB × Nat) :=
  match lookupUnitId tx name with
  | some i => .ok (tx, i)
  | none =>
    if name ∈ conc.unitNames then
      .error (.wrapped ("failed to create new measurement unit " ++ name)
        (.uniqueViolation "measurement_units_name_key"))
    else
      .ok ({ tx with
              units := tx.units ++ [⟨tx.nextId, name, none, .metric, none, none⟩],
              nextId := tx.nextId + 1 }, tx.nextId)

/-- findOrCreateTag: lookup by name; on a miss INSERT INTO tags (id, name)
with a fresh id. -/
def findOrCreateTag (tx : DB) (conc : ConcurrentWrites) (name : String) :
    Except StoreErr (DB × Nat) :=
  match lookupTagId tx name with
  | some i => .ok (tx, i)
  | none =>
    if name ∈ conc.tagNames then
      .error (.wrapped ("failed to create new tag " ++ name)
        (.uniqueViolation "tags_name_key"))
    else
      .ok ({ tx with
              tags := tx.tags ++ [⟨tx.nextId, name, none, none⟩],
              nextId := tx.nextId + 1 }, tx.nextId)

/-- Unit resolution step of the ingredient loop: a unit is resolved only
when ingReq.UnitName is non-nil and non-empty, otherwise the junction row
gets a NULL unit_id. -/
def resolveOptionalUnit (tx : DB) (conc : ConcurrentWrites) (unitName : Option String) :
    Except StoreErr (DB × Option Nat) :=
  match unitName with
  | none => .ok (tx, none)
  | some u =>
    if u = "" then .ok (tx, none)
    else
      match findOrCreateMeasurementUnit tx conc u with
      | .error e => .error (.wrapped ("processing measurement unit " ++ u) e)
      | .ok (tx1, uid) => .ok (tx1, some uid)

/-- Ingredient loop of CreateRecipe/UpdateRecipe: for each request line,
resolve the ingredient name, optionally resolve the unit name, and
INSERT INTO recipe_ingredients; the insert is rejected when it would
violate UNIQUE(recipe_id, ingredient_id). -/
def processIngredients (conc : ConcurrentWrites) (rid : Nat) :
    List RecipeIngredientRequest → DB → Except StoreErr DB
  | [], tx => .ok tx
  | q :: rest, tx =>
    match findOrCreateIngredient tx conc q.ingredientName with
    | .error e => .error (.wrapped ("processing ingredient " ++ q.ingredientName) e)
    | .ok (tx1, ingId) =>
      match resolveOptionalUnit tx1 conc q.unitName with
      | .error e => .error e
      | .ok (tx2, unitId) =>
        if tx2.recipeIngredients.any
            (fun r => r.recipeId == rid && r.ingredientId == ingId) then
          .error (.wrapped ("failed to insert recipe ingredient link for " ++ q.ingredientName)
            (.uniqueViolation "recipe_ingredients_recipe_id_ingredient_id_key"))
        else
          processIngredients conc rid rest
            { tx2 with recipeIngredients := tx2.recipeIngredients ++
                [⟨rid, ingId, q.quantity, unitId, q.notes, q.sortOrder⟩] }

/-- Step loop of CreateRecipe/UpdateRecipe: INSERT INTO recipe_steps per
request step; the insert is rejected when it would violate
UNIQUE(recipe_id, step_number). -/
def processSteps (rid : Nat) :
    List RecipeStepRequest → DB → Except StoreErr DB
  | [], tx => .ok tx
  | q :: rest, tx =>
    if tx.recipeSteps.any (fun r => r.recipeId == rid && r.stepNumber == q.stepNumber) then
      .error (.wrapped ("failed to insert recipe step " ++ toString q.stepNumber)
        (.uniqueViolation "recipe_steps_recipe_id_step_number_key"))
    else
      processSteps rid rest
        { tx with recipeSteps := tx.recipeSteps ++
            [⟨rid, q.stepNumber, q.instruction, q.durationMinutes, q.temperature⟩] }

/-- Row of recipe_steps inserted for one request step of a recipe. -/
def mkStepRow (rid : Nat) (q : RecipeStepRequest) : RecipeStepRow :=
  ⟨rid, q.stepNumber, q.instruction, q.durationMinutes, q.temperature⟩

/-- Tag loop of CreateRecipe/UpdateRecipe: resolve each tag name and
INSERT INTO recipe_tags; the insert is rejected when it would violate the
(recipe_id, tag_id) primary key. -/
def processTags (conc : ConcurrentWrites) (rid : Nat) :
    List RecipeTagRequest → DB → Except StoreErr DB
  | [], tx => .ok tx
  | q :: rest, tx =>
    match findOrCreateTag tx conc q.name with
    | .error e => .error (.wrapped ("processing tag " ++ q.name) e)
    | .ok (tx1, tagId) =>
      if tx1.recipeTags.any (fun r => r.recipeId == rid && r.tagId == tagId) then
        .error (.wrapped ("failed to insert recipe tag link for " ++ q.name)
          (.uniqueViolation "recipe_tags_pkey"))
      else
        processTags conc rid rest
          { tx1 with recipeTags := tx1.recipeTags ++ [⟨rid, tagId⟩] }

/-- SELECT ... FROM recipes r WHERE r.id = the given id. -/
def lookupRecipeRow (db : DB) (id : Nat) : Option RecipeRow :=
  db.recipes.find? (fun r => r.id == id)

/-- JOIN target lookup: ingredients row by id. -/
def lookupIngredientRow (db : DB) (id : Nat) : Option IngredientRow :=
  db.ingredients.find? (fun r => r.id == id)

/-- LEFT JOIN target lookup: measurement_units row by id. -/
def lookupUnitRow (db : DB) (id : Nat) : Option UnitRow :=
  db.units.find? (fun r => r.id == id)

/-- JOIN target lookup: tags row by id. -/
def lookupTagRow (db : DB) (id : Nat) : Option TagRow :=
  db.tags.find? (fun r => r.id == id)

/-- Insertion into a list sorted by the boolean relation le. -/
def insertBy {α : Type} (le : α → α → Bool) (a : α) : List α → List α
  | [] => [a]
  | b :: bs => if le a b then a :: b :: bs else b :: insertBy le a bs

/-- Insertion sort by the boolean relation le; models the ORDER BY clauses
of GetRecipeByID (kept kernel-reducible so concrete runs evaluate). -/
def sortBy {α : Type} (le : α → α → Bool) : List α → List α
  | [] => []
  | a :: as => insertBy le a (sortBy le as)

/-- Lexicographic order on character lists, modelling the text ordering
the database applies in ORDER BY t.name. -/
def charListLe : List Char → List Char → Bool
  | [], _ => true
  | _ :: _, [] => false
  | a :: as, b :: bs => if a = b then charListLe as bs else decide (a < b)

/-- Text comparison used for ORDER BY on a name column. -/
def strLe (s t : String) : Bool := charListLe s.data t.data

/-- Join of one recipe_ingredients row with the ingredients table (INNER
JOIN) and the measurement_units table (LEFT JOIN): the assembled
ingredient carries a unit snapshot exactly when the scanned mu.id was
non-NULL, which is when unit_id is set and matches a unit row. -/
def assembleIngredient (db : DB) (r : RecipeIngredientRow) : Option AssembledIngredient :=
  (lookupIngredientRow db r.ingredientId).map (fun ing =>
    { ingredientId := r.ingredientId
      ingredientName := ing.name
      ingredientDescription := ing.category
      quantity := r.quantity
      notes := r.notes
      sortOrder := r.sortOrder
      unit := (r.unitId.bind (lookupUnitRow db)).map
        (fun u => ⟨u.id, u.name, u.abbreviation, u.system⟩) })

/-- GetRecipeByID: read the scalar recipe row (NotFound error when no row
matches), then assemble the ingredient rows ordered by sort_order, the
step rows ordered by step_number, and the tag rows ordered by tag name. -/
def getRecipeByID (db : DB) (id : Nat) : Except StoreErr Recipe :=
  match lookupRecipeRow db id with
  | none => .error (.recipeNotFound id)
  | some r =>
    let ingredients := sortBy (fun a b => a.sortOrder ≤ b.sortOrder)
      ((db.recipeIngredients.filter (fun x => x.recipeId == id)).filterMap
        (assembleIngredient db))
    let steps := sortBy (fun a b => a.stepNumber ≤ b.stepNumber)
      ((db.recipeSteps.filter (fun x => x.recipeId == id)).map
        (fun s => { stepNumber := s.stepNumber, instruction := s.instruction,
                    durationMinutes := s.durationMinutes, temperature := s.temperature }))
    let tags := sortBy (fun a b => strLe a.name b.name)
      ((db.recipeTags.filter (fun x => x.recipeId == id)).filterMap
        (fun rt => (lookupTagRow db rt.tagId).map (fun t => AssembledTag.mk t.id t.name)))
    .ok { id := r.id, title := r.title, description := r.description,
          photoFilename := r.photoFilename, serves := r.serves,
          prepTimeMinutes := r.prepTimeMinutes, cookTimeMinutes := r.cookTimeMinutes,
          totalTimeMinutes := totalTimeMinutes r,
          createdAt := r.createdAt, updatedAt := r.updatedAt, createdBy := r.createdBy,
          ingredients := ingredients, steps := steps, tags := tags }

/-- Recipe row inserted by CreateRecipe: fresh id, scalar request fields,
created_at and updated_at defaulted to CURRENT_TIMESTAMP. -/
def insertedRecipeRow (db : DB) (req : RecipeRequest) : RecipeRow :=
  ⟨db.nextId, req.title, req.description, req.photoFilename, req.serves,
   req.prepTimeMinutes, req.cookTimeMinutes, db.now, db.now, req.createdBy⟩

/-- Column assignments of the UPDATE recipes statement: title,
description, photo_filename, serves, prep/cook time and created_by come
from the request, updated_at is refreshed; id and created_at are not in
the SET list. -/
def applyScalarUpdate (req : RecipeRequest) (now : Nat) (r : RecipeRow) : RecipeRow :=
  { r with title := req.title, description := req.description,
           photoFilename := req.photoFilename, serves := req.serves,
           prepTimeMinutes := req.prepTimeMinutes,
           cookTimeMinutes := req.cookTimeMinutes,
           createdBy := req.createdBy, updatedAt := now }

/-- Transaction body of CreateRecipe: INSERT the recipe row with a fresh
id (created_at and updated_at default to CURRENT_TIMESTAMP; the total
time column is generated, never supplied), then run the ingredient, step
and tag loops. -/
def createRecipeTx (db : DB) (conc : ConcurrentWrites) (req : RecipeRequest) :
    Except StoreErr DB :=
  let rid := db.nextId
  let tx0 : DB := { db with
    recipes := db.recipes ++ [insertedRecipeRow db req],
    nextId := db.nextId + 1 }
  match processIngredients conc rid req.ingredients tx0 with
  | .error e => .error e
  | .ok tx1 =>
    match processSteps rid req.steps tx1 with
    | .error e => .error e
    | .ok tx2 => processTags conc rid req.tags tx2

/-- CreateRecipe: run the transaction body and commit; on any error the
transaction is rolled back and the original state is returned.  After a
successful commit the fully populated recipe is re-read with
GetRecipeByID. -/
def createRecipe (db : DB) (conc : ConcurrentWrites) (req : RecipeRequest) :
    DB × Except StoreErr Recipe :=
  match createRecipeTx db conc req with
  | .error e => (db, .error e)
  | .ok txf => (txf, getRecipeByID txf db.nextId)

/-- Transaction body of UpdateRecipe: UPDATE the scalar columns of the
matching recipe row (title, description, photo_filename, serves,
prep/cook time, created_by) refreshing updated_at (NotFound when no row
matched), DELETE every recipe_ingredients, recipe_steps and recipe_tags
row of the recipe, and re-run the three insertion loops from the
request. -/
def updateRecipeTx (db : DB) (conc : ConcurrentWrites) (id : Nat) (req : RecipeRequest) :
    Except StoreErr DB :=
  match lookupRecipeRow db id with
  | none => .error (.recipeNotFoundForUpdate id)
  | some _ =>
    let tx0 : DB := { db with
      recipes := db.recipes.map (fun r =>
        if r.id == id then applyScalarUpdate req db.now r else r) }
    let tx1 : DB := { tx0 with
      recipeIngredients := tx0.recipeIngredients.filter (fun r => r.recipeId != id),
      recipeSteps := tx0.recipeSteps.filter (fun r => r.recipeId != id),
      recipeTags := tx0.recipeTags.filter (fun r => r.recipeId != id) }
    match processIngredients conc id req.ingredients tx1 with
    | .error e => .error e
    | .ok tx2 =>
      match processSteps id req.steps tx2 with
      | .error e => .error e
      | .ok tx3 => processTags conc id req.tags tx3

/-- UpdateRecipe: run the transaction body and commit; on any error the
original state is returned; on success the updated recipe is re-read with
GetRecipeByID. -/
def updateRecipe (db : DB) (conc : ConcurrentWrites) (id : Nat) (req : RecipeRequest) :
    DB × Except StoreErr Recipe :=
  match updateRecipeTx db conc id req with
  | .error e => (db, .error e)
  | .ok txf => (txf, getRecipeByID txf id)

/-- DeleteRecipe: DELETE FROM recipes WHERE id matches; NotFound when zero
rows were affected.  The dependent recipe_ingredients, recipe_steps and
recipe_tags rows disappear through the ON DELETE CASCADE constraints of
the schema. -/
def deleteRecipe (db : DB) (id : Nat) : DB × Except StoreErr Unit :=
  if db.recipes.any (fun r => r.id == id) then
    ({ db with
        recipes := db.recipes.filter (fun r => r.id != id),
        recipeIngredients := db.recipeIngredients.filter (fun r => r.recipeId != id),
        recipeSteps := db.recipeSteps.filter (fun r => r.recipeId != id),
        recipeTags := db.recipeTags.filter (fun r => r.recipeId != id) }, .ok ())
  else
    (db, .error (.recipeNotFoundForDeletion id))

/-- Error message produced by the fmt.Errorf chain of the store; the
wrapped constructor reproduces the ctx plus colon plus inner message shape
of fmt.Errorf with a trailing percent-w verb. -/
def StoreErr.message : StoreErr → String
  | .recipeNotFound id => "recipe with ID " ++ toString id ++ " not found"
  | .recipeNotFoundForUpdate id => "recipe with ID " ++ toString id ++ " not found for update"
  | .recipeNotFoundForDeletion id => "recipe with ID " ++ toString id ++ " not found for deletion"
  | .uniqueViolation c =>
      "ERROR: duplicate key value violates unique constraint " ++ c ++ " (SQLSTATE 23505)"
  | .queryFault m => m
  | .wrapped ctx e => ctx ++ ": " ++ e.message

/-- Character-list test that pat occurs at the head of s. -/
def headMatch : List Char → List Char → Bool
  | [], _ => true
  | _ :: _, [] => false
  | a :: as, b :: bs => a == b && headMatch as bs

/-- Character-list substring test. -/
def containsChars (pat : List Char) : List Char → Bool
  | [] => headMatch pat []
  | c :: rest => headMatch pat (c :: rest) || containsChars pat rest

/-- strings.Contains as used by the HTTP handlers. -/
def strContains (s pat : String) : Bool := containsChars pat.data s.data

/-- Error classification of the Get/Update/Delete handlers: an error whose
message contains the text "not found" is mapped to HTTP 404, every other
error to HTTP 500. -/
def handlerStatus (e : StoreErr) : Nat :=
  if strContains e.message "not found" then 404 else 500

/-- Error classification of the CreateRecipe handler: every store error is
mapped to HTTP 500. -/
def createHandlerStatus (_ : StoreErr) : Nat := 500

/-- Structural NotFound test: exactly the errors built from the three
"not found" message patterns of the store. -/
def StoreErr.isNotFound : StoreErr → Bool
  | .recipeNotFound _ => true
  | .recipeNotFoundForUpdate _ => true
  | .recipeNotFoundForDeletion _ => true
  | _ => false

/-- Empty database with fresh-id supply starting at 1 and clock at 100. -/
def db0 : DB := ⟨[], [], [], [], [], [], [], 1, 100⟩

/-- The concrete scenario of the spec: Tart, serves 4, prep 15, cook 25,
one ingredient feta with unit gram, one step, one tag vegetarian. -/
def reqTart : RecipeRequest :=
  { title := "Tart", description := none, photoFilename := none, serves := some 4,
    prepTimeMinutes := some 15, cookTimeMinutes := some 25, createdBy := none,
    ingredients := [⟨"feta", some 200, some "gram", none, 0⟩],
    steps := [⟨1, "Preheat oven", none, none⟩],
    tags := [⟨"vegetarian"⟩] }

/-- Request with prep time absent and cook time 20 and no collections. -/
def reqNullPrep : RecipeRequest :=
  { title := "NullPrep", description := none, photoFilename := none, serves := none,
    prepTimeMinutes := none, cookTimeMinutes := some 20, createdBy := none,
    ingredients := [], steps := [], tags := [] }

/-- Request whose two steps share the step number 1 and therefore violate
UNIQUE(recipe_id, step_number) on insertion. -/
def reqDupSteps : RecipeRequest :=
  { title := "Dup", description := none, photoFilename := none, serves := none,
    prepTimeMinutes := none, cookTimeMinutes := none, createdBy := none,
    ingredients := [], steps := [⟨1, "a", none, none⟩, ⟨1, "b", none, none⟩], tags := [] }

/-- Error the store produces when the second insert of reqDupSteps is
rejected by the step-number uniqueness constraint. -/
def stepConflictErr : StoreErr :=
  .wrapped "failed to insert recipe step 1"
    (.uniqueViolation "recipe_steps_recipe_id_step_number_key")

/-- Concurrent environment in which another transaction has just created
the name salt in each of the three reference tables. -/
def concSalt : ConcurrentWrites := ⟨["salt"], ["salt"], ["salt"]⟩

/-- Recipe row used in the one-recipe database dbOne. -/
def rowOne : RecipeRow := ⟨1, "Tart", none, none, none, none, none, 50, 50, none⟩

/-- Database holding one recipe row with id 1 and nothing else. -/
def dbOne : DB := ⟨[rowOne], [], [], [], [], [], [], 2, 100⟩

/-- Database with one recipe, two ingredient junction rows stored out of
sort order (only the first linking a unit), two step rows stored out of
step order, and two tag links whose names are out of alphabetical
order. -/
def dbSeven : DB :=
  { recipes := [rowOne]
    ingredients := [⟨10, "feta", none⟩, ⟨11, "salt", none⟩]
    units := [⟨20, "gram", some "g", .metric, none, none⟩]
    tags := [⟨30, "vegetarian", none, none⟩, ⟨31, "Mediterranean", none, none⟩]
    recipeIngredients :=
      [⟨1, 11, none, none, none, 1⟩, ⟨1, 10, some 200, some 20, none, 0⟩]
    recipeSteps :=
      [⟨1, 2, "Bake", none, none⟩, ⟨1, 1, "Preheat", some 10, some "190C"⟩]
    recipeTags := [⟨1, 30⟩, ⟨1, 31⟩]
    nextId := 40
    now := 100 }

/-- State after creating reqNullPrep in db0. -/
def dbNull : DB := { db0 with recipes := [insertedRecipeRow db0 reqNullPrep], nextId := 2 }

/-- Recipe returned by that create: total time is absent because prep is
absent, even though cook is 20. -/
def recNull : Recipe :=
  ⟨1, "NullPrep", none, none, none, none, some 20, none, 100, 100, none, [], [], []⟩

/-- State after updating recipe 1 of dbOne with reqNullPrep. -/
def dbOneUpd : DB := { dbOne with recipes := [applyScalarUpdate reqNullPrep 100 rowOne] }

/-- Recipe returned by that update: created_at keeps its value 50,
updated_at is refreshed to 100. -/
def recOneUpd : Recipe :=
  ⟨1, "NullPrep", none, none, none, none, some 20, none, 50, 100, none, [], [], []⟩

/-- State after resolving the fresh unit name gram in db0. -/
def db0unit : DB :=
  { db0 with units := [⟨1, "gram", none, .metric, none, none⟩], nextId := 2 }

/-- Assembled recipe of dbSeven: ingredients in sort order, steps in step
order, tags in name order, unit snapshot only on the junction row that
links one. -/
def recSeven : Recipe :=
  { id := 1, title := "Tart", description := none, photoFilename := none, serves := none,
    prepTimeMinutes := none, cookTimeMinutes := none, totalTimeMinutes := none,
    createdAt := 50, updatedAt := 50, createdBy := none,
    ingredients :=
      [⟨10, "feta", none, some 200, none, 0, some ⟨20, "gram", some "g", .metric⟩⟩,
       ⟨11, "salt", none, none, none, 1, none⟩],
    steps := [⟨1, "Preheat", some 10, some "190C"⟩, ⟨2, "Bake", none, none⟩],
    tags := [⟨31, "Mediterranean"⟩, ⟨30, "vegetarian"⟩] }

/-- State after updating recipe 1 of dbOne with the Tart request. -/
def dbTartUpd : DB :=
  { recipes := [⟨1, "Tart", none, none, some 4, some 15, some 25, 50, 100, none⟩],
    ingredients := [⟨2, "feta", none⟩],
    units := [⟨3, "gram", none, .metric, none, none⟩],
    tags := [⟨4, "vegetarian", none, none⟩],
    recipeIngredients := [⟨1, 2, some 200, some 3, none, 0⟩],
    recipeSteps := [⟨1, 1, "Preheat oven", none, none⟩],
    recipeTags := [⟨1, 4⟩],
    nextId := 5, now := 100 }

/-- Recipe returned by that update. -/
def recTartUpd : Recipe :=
  { id := 1, title := "Tart", description := none, photoFilename := none, serves := some 4,
    prepTimeMinutes := some 15, cookTimeMinutes := some 25, totalTimeMinutes := some 40,
    createdAt := 50, updatedAt := 100, createdBy := none,
    ingredients := [⟨2, "feta", none, some 200, none, 0, some ⟨3, "gram", none, .metric⟩⟩],
    steps := [⟨1, "Preheat oven", none, none⟩],
    tags := [⟨4, "vegetarian"⟩] }

/-! Helper lemmas about the sorting and text primitives. -/

theorem mem_insertBy {α : Type} (le : α → α → Bool) (a x : α) :
    ∀ l : List α, x ∈ insertBy le a l ↔ x = a ∨ x ∈ l := by
  intro l
  induction l with
  | nil => simp [insertBy]
  | cons b bs ih =>
    unfold insertBy
    by_cases h : le a b = true
    · rw [if_pos h]
      simp [List.mem_cons]
    · rw [if_neg h]
      simp [List.mem_cons, ih]
      tauto

theorem mem_sortBy {α : Type} (le : α → α → Bool) (x : α) :
    ∀ l : List α, x ∈ sortBy le l ↔ x ∈ l := by
  intro l
  induction l with
  | nil => simp [sortBy]
  | cons a as ih =>
    unfold sortBy
    rw [mem_insertBy, ih]
    simp [List.mem_cons]

theorem pairwise_insertBy {α : Type} {le : α → α → Bool}
    (htrans : ∀ a b c, le a b = true → le b c = true → le a c = true)
    (htot : ∀ a b, le a b = true ∨ le b a = true) (a : α) :
    ∀ l : List α, l.Pairwise (fun x y => le x y = true) →
      (insertBy le a l).Pairwise (fun x y => le x y = true) := by
  intro l
  induction l with
  | nil => intro _; simp [insertBy]
  | cons b bs ih =>
    intro h
    rw [List.pairwise_cons] at h
    obtain ⟨hb, hbs⟩ := h
    unfold insertBy
    by_cases hab : le a b = true
    · rw [if_pos hab]
      refine List.Pairwise.cons ?_ (List.Pairwise.cons hb hbs)
      intro x hx
      rcases List.mem_cons.mp hx with rfl | hx
      · exact hab
      · exact htrans a b x hab (hb x hx)
    · rw [if_neg hab]
      refine List.Pairwise.cons ?_ (ih hbs)
      intro x hx
      rcases (mem_insertBy le a x bs).mp hx with heq | hx
      · subst heq
        rcases htot x b with h1 | h1
        · exact absurd h1 hab
        · exact h1
      · exact hb x hx

theorem pairwise_sortBy {α : Type} {le : α → α → Bool}
    (htrans : ∀ a b c, le a b = true → le b c = true → le a c = true)
    (htot : ∀ a b, le a b = true ∨ le b a = true) :
    ∀ l : List α, (sortBy le l).Pairwise (fun x y => le x y = true) := by
  intro l
  induction l with
  | nil => simp [sortBy]
  | cons a as ih => exact pairwise_insertBy htrans htot a (sortBy le as) ih

theorem charListLe_trans :
    ∀ l1 l2 l3 : List Char, charListLe l1 l2 = true → charListLe l2 l3 = true →
      charListLe l1 l3 = true := by
  intro l1
  induction l1 with
  | nil => intro l2 l3 _ _; rfl
  | cons a as ih =>
    intro l2 l3 h12 h23
    cases l2 with
    | nil => exact absurd h12 (by simp [charListLe])
    | cons b bs =>
      cases l3 with
      | nil => exact absurd h23 (by simp [charListLe])
      | cons c cs =>
        unfold charListLe at h12 h23 ⊢
        by_cases hab : a = b
        · subst hab
          rw [if_pos rfl] at h12
          by_cases hac : a = c
          · subst hac
            rw [if_pos rfl] at h23 ⊢
            exact ih bs cs h12 h23
          · rw [if_neg hac] at h23 ⊢
            exact h23
        · rw [if_neg hab] at h12
          have hab2 : a < b := of_decide_eq_true h12
          by_cases hbc : b = c
          · subst hbc
            rw [if_neg hab]
            exact h12
          · rw [if_neg hbc] at h23
            have hbc2 : b < c := of_decide_eq_true h23
            have hac2 : a < c := lt_trans hab2 hbc2
            rw [if_neg (ne_of_lt hac2)]
            exact decide_eq_true hac2

theorem charListLe_total :
    ∀ l1 l2 : List Char, charListLe l1 l2 = true ∨ charListLe l2 l1 = true := by
  intro l1
  induction l1 with
  | nil => intro l2; left; rfl
  | cons a as ih =>
    intro l2
    cases l2 with
    | nil => right; rfl
    | cons b bs =>
      unfold charListLe
      by_cases hab : a = b
      · subst hab
        rw [if_pos rfl, if_pos rfl]
        exact ih bs
      · rw [if_neg hab, if_neg (Ne.symm hab)]
        rcases lt_or_gt_of_ne hab with h | h
        · left; exact decide_eq_true h
        · right; exact decide_eq_true h

theorem strLe_trans (s t u : String) (h1 : strLe s t = true) (h2 : strLe t u = true) :
    strLe s u = true :=
  charListLe_trans s.data t.data u.data h1 h2

theorem strLe_total (s t : String) : strLe s t = true ∨ strLe t s = true :=
  charListLe_total s.data t.data

theorem headMatch_append_self : ∀ l zs : List Char, headMatch l (l ++ zs) = true := by
  intro l
  induction l with
  | nil => intro zs; rfl
  | cons a as ih =>
    intro zs
    simp [headMatch, ih]

theorem containsChars_nil_pat : ∀ s : List Char, containsChars [] s = true := by
  intro s
  cases s with
  | nil => rfl
  | cons c rest => simp [containsChars, headMatch]

theorem containsChars_of_append :
    ∀ (pat ys zs : List Char), containsChars pat (ys ++ (pat ++ zs)) = true := by
  intro pat ys
  induction ys with
  | nil =>
    intro zs
    cases pat with
    | nil => exact containsChars_nil_pat zs
    | cons c rest =>
      simp only [List.nil_append, containsChars, List.cons_append]
      rw [Bool.or_eq_true]
      left
      have h := headMatch_append_self (c :: rest) zs
      simpa [headMatch] using h
  | cons y ys ih =>
    intro zs
    simp only [List.cons_append, containsChars]
    rw [Bool.or_eq_true]
    right
    exact ih zs

/-! Frame lemmas: which tables each resolver leaves untouched. -/

theorem findOrCreateIngredient_ok_frame {tx : DB} {conc : ConcurrentWrites} {name : String}
    {tx1 : DB} {i : Nat} (h : findOrCreateIngredient tx conc name = .ok (tx1, i)) :
    tx1.recipes = tx.recipes ∧ tx1.units = tx.units ∧ tx1.tags = tx.tags ∧
    tx1.recipeIngredients = tx.recipeIngredients ∧ tx1.recipeSteps = tx.recipeSteps ∧
    tx1.recipeTags = tx.recipeTags ∧ tx1.now = tx.now := by
  unfold findOrCreateIngredient at h
  split at h
  · simp only [Except.ok.injEq, Prod.mk.injEq] at h
    obtain ⟨h1, _⟩ := h
    subst h1
    exact ⟨rfl, rfl, rfl, rfl, rfl, rfl, rfl⟩
  · split at h
    · exact Except.noConfusion h
    · simp only [Except.ok.injEq, Prod.mk.injEq] at h
      obtain ⟨h1, _⟩ := h
      subst h1
      exact ⟨rfl, rfl, rfl, rfl, rfl, rfl, rfl⟩

theorem findOrCreateMeasurementUnit_ok_frame {tx : DB} {conc : ConcurrentWrites}
    {name : String} {tx1 : DB} {i : Nat}
    (h : findOrCreateMeasurementUnit tx conc name = .ok (tx1, i)) :
    tx1.recipes = tx.recipes ∧ tx1.ingredients = tx.ingredients ∧ tx1.tags = tx.tags ∧
    tx1.recipeIngredients = tx.recipeIngredients ∧ tx1.recipeSteps = tx.recipeSteps ∧
    tx1.recipeTags = tx.recipeTags ∧ tx1.now = tx.now := by
  unfold findOrCreateMeasurementUnit at h
  split at h
  · simp only [Except.ok.injEq, Prod.mk.injEq] at h
    obtain ⟨h1, _⟩ := h
    subst h1
    exact ⟨rfl, rfl, rfl, rfl, rfl, rfl, rfl⟩
  · split at h
    · exact Except.noConfusion h
    · simp only [Except.ok.injEq, Prod.mk.injEq] at h
      obtain ⟨h1, _⟩ := h
      subst h1
      exact ⟨rfl, rfl, rfl, rfl, rfl, rfl, rfl⟩

theorem findOrCreateTag_ok_frame {tx : DB} {conc : ConcurrentWrites} {name : String}
    {tx1 : DB} {i : Nat} (h : findOrCreateTag tx conc name = .ok (tx1, i)) :
    tx1.recipes = tx.recipes ∧ tx1.ingredients = tx.ingredients ∧ tx1.units = tx.units ∧
    tx1.recipeIngredients = tx.recipeIngredients ∧ tx1.recipeSteps = tx.recipeSteps ∧
    tx1.recipeTags = tx.recipeTags ∧ tx1.now = tx.now := by
  unfold findOrCreateTag at h
  split at h
  · simp only [Except.ok.injEq, Prod.mk.injEq] at h
    obtain ⟨h1, _⟩ := h
    subst h1
    exact ⟨rfl, rfl, rfl, rfl, rfl, rfl, rfl⟩
  · split at h
    · exact Except.noConfusion h
    · simp only [Except.ok.injEq, Prod.mk.injEq] at h
      obtain ⟨h1, _⟩ := h
      subst h1
      exact ⟨rfl, rfl, rfl, rfl, rfl, rfl, rfl⟩

theorem resolveOptionalUnit_ok_frame {tx : DB} {conc : ConcurrentWrites}
    {unitName : Option String} {tx1 : DB} {u : Option Nat}
    (h : resolveOptionalUnit tx conc unitName = .ok (tx1, u)) :
    tx1.recipes = tx.recipes ∧ tx1.ingredients = tx.ingredients ∧ tx1.tags = tx.tags ∧
    tx1.recipeIngredients = tx.recipeIngredients ∧ tx1.recipeSteps = tx.recipeSteps ∧
    tx1.recipeTags = tx.recipeTags ∧ tx1.now = tx.now := by
  unfold resolveOptionalUnit at h
  split at h
  · simp only [Except.ok.injEq, Prod.mk.injEq] at h
    obtain ⟨h1, _⟩ := h
    subst h1
    exact ⟨rfl, rfl, rfl, rfl, rfl, rfl, rfl⟩
  · split at h
    · simp only [Except.ok.injEq, Prod.mk.injEq] at h
      obtain ⟨h1, _⟩ := h
      subst h1
      exact ⟨rfl, rfl, rfl, rfl, rfl, rfl, rfl⟩
    · split at h
      · exact Except.noConfusion h
      · rename_i txm uid heq
        simp only [Except.ok.injEq, Prod.mk.injEq] at h
        obtain ⟨h1, _⟩ := h
        subst h1
        exact findOrCreateMeasurementUnit_ok_frame heq

/-! Error-shape lemmas: every error of the three insertion loops is a
wrapped storage error, never one of the NotFound patterns. -/

theorem resolveOptionalUnit_error_shape {tx : DB} {conc : ConcurrentWrites}
    {unitName : Option String} {e : StoreErr}
    (h : resolveOptionalUnit tx conc unitName = .error e) :
    e.isNotFound = false := by
  unfold resolveOptionalUnit at h
  split at h
  · exact Except.noConfusion h
  · split at h
    · exact Except.noConfusion h
    · split at h
      · simp only [Except.error.injEq] at h
        subst h
        rfl
      · exact Except.noConfusion h

theorem processIngredients_error_shape (conc : ConcurrentWrites) (rid : Nat) :
    ∀ (reqs : List RecipeIngredientRequest) (tx : DB) (e : StoreErr),
      processIngredients conc rid reqs tx = .error e → e.isNotFound = false := by
  intro reqs
  induction reqs with
  | nil => intro tx e h; exact Except.noConfusion h
  | cons q rest ih =>
    intro tx e h
    unfold processIngredients at h
    split at h
    · simp only [Except.error.injEq] at h
      subst h
      rfl
    · split at h
      · rename_i e0 heq
        simp only [Except.error.injEq] at h
        subst h
        exact resolveOptionalUnit_error_shape heq
      · split at h
        · simp only [Except.error.injEq] at h
          subst h
          rfl
        · exact ih _ _ h

theorem processSteps_error_shape (rid : Nat) :
    ∀ (reqs : List RecipeStepRequest) (tx : DB) (e : StoreErr),
      processSteps rid reqs tx = .error e → e.isNotFound = false := by
  intro reqs
  induction reqs with
  | nil => intro tx e h; exact Except.noConfusion h
  | cons q rest ih =>
    intro tx e h
    unfold processSteps at h
    split at h
    · simp only [Except.error.injEq] at h
      subst h
      rfl
    · exact ih _ _ h

theorem processTags_error_shape (conc : ConcurrentWrites) (rid : Nat) :
    ∀ (reqs : List RecipeTagRequest) (tx : DB) (e : StoreErr),
      processTags conc rid reqs tx = .error e → e.isNotFound = false := by
  intro reqs
  induction reqs with
  | nil => intro tx e h; exact Except.noConfusion h
  | cons q rest ih =>
    intro tx e h
    unfold processTags at h
    split at h
    · simp only [Except.error.injEq] at h
      subst h
      rfl
    · split at h
      · simp only [Except.error.injEq] at h
        subst h
        rfl
      · exact ih _ _ h



/-! Characterisation of the successful runs of the three insertion loops. -/

theorem processIngredients_ok_spec (conc : ConcurrentWrites) (rid : Nat) :
    ∀ (reqs : List RecipeIngredientRequest) (tx txf : DB),
      processIngredients conc rid reqs tx = .ok txf →
      txf.recipes = tx.recipes ∧ txf.recipeSteps = tx.recipeSteps ∧
      txf.recipeTags = tx.recipeTags ∧ txf.now = tx.now ∧
      ∃ added : List RecipeIngredientRow,
        txf.recipeIngredients = tx.recipeIngredients ++ added ∧
        added.map (fun r => (r.quantity, r.notes, r.sortOrder)) =
          reqs.map (fun q => (q.quantity, q.notes, q.sortOrder)) ∧
        ∀ r ∈ added, r.recipeId = rid := by
  intro reqs
  induction reqs with
  | nil =>
    intro tx txf h
    simp only [processIngredients, Except.ok.injEq] at h
    subst h
    exact ⟨rfl, rfl, rfl, rfl, [], by simp, by simp, by simp⟩
  | cons q rest ih =>
    intro tx txf h
    unfold processIngredients at h
    split at h
    · exact Except.noConfusion h
    · rename_i p tx1 ingId heq1
      split at h
      · exact Except.noConfusion h
      · rename_i p2 tx2 unitId heq2
        split at h
        · exact Except.noConfusion h
        · obtain ⟨ha1, ha2, ha3, ha4, ha5, ha6, ha7⟩ := findOrCreateIngredient_ok_frame heq1
          obtain ⟨hb1, hb2, hb3, hb4, hb5, hb6, hb7⟩ := resolveOptionalUnit_ok_frame heq2
          obtain ⟨hr3, hs3, ht3, hn3, added, hadd, hmap, hmem⟩ := ih _ _ h
          refine ⟨?_, ?_, ?_, ?_,
            ⟨rid, ingId, q.quantity, unitId, q.notes, q.sortOrder⟩ :: added, ?_, ?_, ?_⟩
          · rw [hr3]
            show tx2.recipes = tx.recipes
            rw [hb1, ha1]
          · rw [hs3]
            show tx2.recipeSteps = tx.recipeSteps
            rw [hb5, ha5]
          · rw [ht3]
            show tx2.recipeTags = tx.recipeTags
            rw [hb6, ha6]
          · rw [hn3]
            show tx2.now = tx.now
            rw [hb7, ha7]
          · rw [hadd]
            show (tx2.recipeIngredients ++
                [⟨rid, ingId, q.quantity, unitId, q.notes, q.sortOrder⟩]) ++ added =
              tx.recipeIngredients ++
                ⟨rid, ingId, q.quantity, unitId, q.notes, q.sortOrder⟩ :: added
            rw [hb4, ha4, List.append_assoc]
            rfl
          · simp only [List.map_cons, hmap]
          · intro r hr
            rcases List.mem_cons.mp hr with rfl | hr
            · rfl
            · exact hmem r hr

theorem processSteps_ok_spec (rid : Nat) :
    ∀ (reqs : List RecipeStepRequest) (tx txf : DB),
      processSteps rid reqs tx = .ok txf →
      txf = { tx with recipeSteps := tx.recipeSteps ++ reqs.map (mkStepRow rid) } := by
  intro reqs
  induction reqs with
  | nil =>
    intro tx txf h
    simp only [processSteps, Except.ok.injEq] at h
    subst h
    simp
  | cons q rest ih =>
    intro tx txf h
    unfold processSteps at h
    split at h
    · exact Except.noConfusion h
    · have h2 := ih _ _ h
      rw [h2]
      simp [List.append_assoc, mkStepRow]

theorem processTags_ok_spec (conc : ConcurrentWrites) (rid : Nat) :
    ∀ (reqs : List RecipeTagRequest) (tx txf : DB),
      processTags conc rid reqs tx = .ok txf →
      txf.recipes = tx.recipes ∧ txf.recipeIngredients = tx.recipeIngredients ∧
      txf.recipeSteps = tx.recipeSteps ∧ txf.now = tx.now ∧
      ∃ added : List RecipeTagRow,
        txf.recipeTags = tx.recipeTags ++ added ∧
        added.length = reqs.length ∧
        ∀ r ∈ added, r.recipeId = rid := by
  intro reqs
  induction reqs with
  | nil =>
    intro tx txf h
    simp only [processTags, Except.ok.injEq] at h
    subst h
    exact ⟨rfl, rfl, rfl, rfl, [], by simp, by simp, by simp⟩
  | cons q rest ih =>
    intro tx txf h
    unfold processTags at h
    split at h
    · exact Except.noConfusion h
    · rename_i p tx1 tagId heq1
      split at h
      · exact Except.noConfusion h
      · obtain ⟨ha1, ha2, ha3, ha4, ha5, ha6, ha7⟩ := findOrCreateTag_ok_frame heq1
        obtain ⟨hr3, hri3, hs3, hn3, added, hadd, hlen, hmem⟩ := ih _ _ h
        refine ⟨?_, ?_, ?_, ?_, ⟨rid, tagId⟩ :: added, ?_, ?_, ?_⟩
        · rw [hr3]
          show tx1.recipes = tx.recipes
          rw [ha1]
        · rw [hri3]
          show tx1.recipeIngredients = tx.recipeIngredients
          rw [ha4]
        · rw [hs3]
          show tx1.recipeSteps = tx.recipeSteps
          rw [ha5]
        · rw [hn3]
          show tx1.now = tx.now
          rw [ha7]
        · rw [hadd]
          show (tx1.recipeTags ++ [⟨rid, tagId⟩]) ++ added =
            tx.recipeTags ++ ⟨rid, tagId⟩ :: added
          rw [ha6, List.append_assoc]
          rfl
        · simp [hlen]
        · intro r hr
          rcases List.mem_cons.mp hr with rfl | hr
          · rfl
          · exact hmem r hr



/-! Small list lemmas used to reason about the table operations. -/

theorem find?_append_of_none {α : Type} {p : α → Bool} {l1 l2 : List α}
    (h : ∀ x ∈ l1, ¬p x = true) :
    List.find? p (l1 ++ l2) = List.find? p l2 := by
  rw [List.find?_append, List.find?_eq_none.mpr h, Option.none_or]

theorem filter_key_after_ne {α : Type} (key : α → Nat) (id : Nat) :
    ∀ l : List α,
      List.filter (fun r => key r == id) (List.filter (fun r => key r != id) l) = [] := by
  intro l
  induction l with
  | nil => rfl
  | cons a l ih =>
    by_cases h : key a = id
    · simp [List.filter_cons, h, ih]
    · simp [List.filter_cons, h, ih]

/-! Characterisation of the successful transaction bodies. -/

theorem createRecipeTx_ok_spec {db : DB} {conc : ConcurrentWrites} {req : RecipeRequest}
    {txf : DB} (h : createRecipeTx db conc req = .ok txf) :
    txf.recipes = db.recipes ++ [insertedRecipeRow db req] := by
  simp only [createRecipeTx] at h
  split at h
  · exact Except.noConfusion h
  · rename_i tx1 heq1
    split at h
    · exact Except.noConfusion h
    · rename_i tx2 heq2
      obtain ⟨hr1, _, _, _, _⟩ := processIngredients_ok_spec conc db.nextId _ _ _ heq1
      have h2 := processSteps_ok_spec db.nextId _ _ _ heq2
      obtain ⟨hr3, _, _, _, _⟩ := processTags_ok_spec conc db.nextId _ _ _ h
      rw [hr3, h2]
      show tx1.recipes = _
      rw [hr1]

theorem updateRecipeTx_ok_spec {db : DB} {conc : ConcurrentWrites} {id : Nat}
    {req : RecipeRequest} {txf : DB} (h : updateRecipeTx db conc id req = .ok txf) :
    txf.recipes =
      db.recipes.map (fun r => if r.id == id then applyScalarUpdate req db.now r else r) ∧
    ∃ addedI : List RecipeIngredientRow, ∃ addedT : List RecipeTagRow,
      txf.recipeIngredients =
        db.recipeIngredients.filter (fun r => r.recipeId != id) ++ addedI ∧
      addedI.map (fun r => (r.quantity, r.notes, r.sortOrder)) =
        req.ingredients.map (fun q => (q.quantity, q.notes, q.sortOrder)) ∧
      (∀ r ∈ addedI, r.recipeId = id) ∧
      txf.recipeSteps =
        db.recipeSteps.filter (fun r => r.recipeId != id) ++ req.steps.map (mkStepRow id) ∧
      txf.recipeTags = db.recipeTags.filter (fun r => r.recipeId != id) ++ addedT ∧
      addedT.length = req.tags.length ∧ (∀ r ∈ addedT, r.recipeId = id) := by
  simp only [updateRecipeTx] at h
  split at h
  · exact Except.noConfusion h
  · rename_i r0 heq0
    split at h
    · exact Except.noConfusion h
    · rename_i tx2 heq1
      split at h
      · exact Except.noConfusion h
      · rename_i tx3 heq2
        obtain ⟨hr1, hs1, ht1, _, addedI, haddI, hmapI, hmemI⟩ :=
          processIngredients_ok_spec conc id _ _ _ heq1
        have h2 := processSteps_ok_spec id _ _ _ heq2
        obtain ⟨hr3, hri3, hs3, _, addedT, haddT, hlenT, hmemT⟩ :=
          processTags_ok_spec conc id _ _ _ h
        refine ⟨?_, addedI, addedT, ?_, hmapI, hmemI, ?_, ?_, hlenT, hmemT⟩
        · rw [hr3, h2]
          show tx2.recipes = _
          rw [hr1]
        · rw [hri3, h2]
          show tx2.recipeIngredients = _
          rw [haddI]
        · rw [hs3, h2]
          show tx2.recipeSteps ++ _ = _
          rw [hs1]
        · rw [haddT, h2]
          show tx2.recipeTags ++ addedT = _
          rw [ht1]

/-! Lookup lemmas connecting the transaction bodies with the assembler. -/

theorem lookupRecipeRow_eq_none {db : DB} {id : Nat}
    (h : ∀ r ∈ db.recipes, r.id ≠ id) : lookupRecipeRow db id = none :=
  List.find?_eq_none.mpr (fun x hx => by simp [h x hx])

theorem lookupRecipeRow_create_ok {db : DB} {conc : ConcurrentWrites}
    {req : RecipeRequest} {txf : DB}
    (hfresh : ∀ r ∈ db.recipes, r.id ≠ db.nextId)
    (h : createRecipeTx db conc req = .ok txf) :
    lookupRecipeRow txf db.nextId = some (insertedRecipeRow db req) := by
  unfold lookupRecipeRow
  rw [createRecipeTx_ok_spec h]
  rw [find?_append_of_none (fun x hx => by simp [hfresh x hx])]
  simp [List.find?, insertedRecipeRow]

theorem lookupRecipeRow_update_ok {db : DB} {conc : ConcurrentWrites} {id : Nat}
    {req : RecipeRequest} {txf : DB} {r0 : RecipeRow}
    (hl : lookupRecipeRow db id = some r0)
    (h : updateRecipeTx db conc id req = .ok txf) :
    lookupRecipeRow txf id = some (applyScalarUpdate req db.now r0) := by
  have hl2 : List.find? (fun r : RecipeRow => r.id == id) db.recipes = some r0 := hl
  have hid : (r0.id == id) = true := by
    have h3 := List.find?_some hl2
    simpa using h3
  unfold lookupRecipeRow
  rw [(updateRecipeTx_ok_spec h).1]
  rw [List.find?_map]
  have hpf : ((fun r : RecipeRow => r.id == id) ∘
      (fun r => if r.id == id then applyScalarUpdate req db.now r else r)) =
      (fun r : RecipeRow => r.id == id) := by
    funext r
    by_cases hr : (r.id == id) = true
    · simp only [Function.comp]
      rw [if_pos hr]
      show ((applyScalarUpdate req db.now r).id == id) = (r.id == id)
      rfl
    · simp only [Function.comp]
      rw [if_neg hr]
  rw [hpf]
  unfold lookupRecipeRow at hl
  rw [hl]
  simp [Option.map, hid]

theorem getRecipeByID_ok_fields {db : DB} {id : Nat} {r : RecipeRow} {rec : Recipe}
    (hl : lookupRecipeRow db id = some r) (h : getRecipeByID db id = .ok rec) :
    rec.id = r.id ∧ rec.title = r.title ∧ rec.createdAt = r.createdAt ∧
    rec.updatedAt = r.updatedAt ∧ rec.prepTimeMinutes = r.prepTimeMinutes ∧
    rec.cookTimeMinutes = r.cookTimeMinutes ∧
    rec.totalTimeMinutes = totalTimeMinutes r := by
  simp only [getRecipeByID, hl, Except.ok.injEq] at h
  subst h
  exact ⟨rfl, rfl, rfl, rfl, rfl, rfl, rfl⟩

theorem getRecipeByID_isOk_of_lookup {db : DB} {id : Nat} {r : RecipeRow}
    (hl : lookupRecipeRow db id = some r) :
    (getRecipeByID db id).isOk = true := by
  simp only [getRecipeByID, hl]
  rfl

theorem updateRecipeTx_ok_lookup {db : DB} {conc : ConcurrentWrites} {id : Nat}
    {req : RecipeRequest} {txf : DB} (h : updateRecipeTx db conc id req = .ok txf) :
    ∃ r0, lookupRecipeRow db id = some r0 := by
  simp only [updateRecipeTx] at h
  split at h
  · exact Except.noConfusion h
  · rename_i r0 heq
    exact ⟨r0, heq⟩

theorem updateRecipeTx_error_shape {db : DB} {conc : ConcurrentWrites} {id : Nat}
    {req : RecipeRequest} {e : StoreErr} {r0 : RecipeRow}
    (hl : lookupRecipeRow db id = some r0)
    (h : updateRecipeTx db conc id req = .error e) : e.isNotFound = false := by
  simp only [updateRecipeTx, hl] at h
  split at h
  · rename_i e0 heq
    simp only [Except.error.injEq] at h
    subst h
    exact processIngredients_error_shape _ _ _ _ _ heq
  · split at h
    · rename_i e0 heq
      simp only [Except.error.injEq] at h
      subst h
      exact processSteps_error_shape _ _ _ _ heq
    · exact processTags_error_shape _ _ _ _ _ h

/-- C2: Create is atomic.  If the transaction fails after the recipe row
was inserted (ingredient resolution, junction insert, step insert or tag
insert), CreateRecipe returns the untouched original state and a
subsequent get on the attempted fresh id fails with NotFound. -/
theorem C2_create_atomic (db : DB) (conc : ConcurrentWrites) (req : RecipeRequest)
    (db1 : DB) (e : StoreErr)
    (hfresh : ∀ r ∈ db.recipes, r.id ≠ db.nextId)
    (h : createRecipe db conc req = (db1, .error e)) :
    db1 = db ∧ getRecipeByID db1 db.nextId = .error (.recipeNotFound db.nextId) := by
  cases htx : createRecipeTx db conc req with
  | error e0 =>
    simp only [createRecipe, htx, Prod.mk.injEq] at h
    obtain ⟨h1, _⟩ := h
    subst h1
    refine ⟨rfl, ?_⟩
    have hnone : lookupRecipeRow db db.nextId = none := lookupRecipeRow_eq_none hfresh
    simp [getRecipeByID, hnone]
  | ok txf =>
    simp only [createRecipe, htx, Prod.mk.injEq] at h
    obtain ⟨_, h2⟩ := h
    have hok := lookupRecipeRow_create_ok hfresh htx
    simp [getRecipeByID, hok] at h2

/-- Witness for C2 at a concrete input: on the empty database, a create
whose two steps share step number 1 fails with the step uniqueness
violation, the state is unchanged, and get on the attempted id 1 returns
NotFound. -/
theorem C2_create_atomic_witness :
    createRecipe db0 noWriters reqDupSteps = (db0, .error stepConflictErr) ∧
    (db0 = db0 ∧ getRecipeByID db0 db0.nextId = .error (.recipeNotFound db0.nextId)) :=
  ⟨by decide,
   C2_create_atomic db0 noWriters reqDupSteps db0 stepConflictErr (by decide) (by decide)⟩

/-- C1 counterexample: creating with prep_time_minutes NULL and
cook_time_minutes 20 stores a recipe whose total_time_minutes is NULL,
not 20 as the claim demands (SQL addition propagates NULL in the
generated column). -/
theorem C1_total_time_counterexample :
    ((createRecipe db0 noWriters reqNullPrep).2.toOption.map
        (fun r => r.totalTimeMinutes)) = some none ∧
    ((createRecipe db0 noWriters reqNullPrep).2.toOption.map
        (fun r => r.totalTimeMinutes)) ≠ some (some 20) := by
  exact ⟨by decide, by decide⟩

/-- C1 (amended): for every recipe stored by Create or Update, the
derived total_time_minutes equals prep + cook when both are present and
is absent when either of the two is absent. -/
theorem C1_total_time_generated (db : DB) (conc : ConcurrentWrites) (req : RecipeRequest) :
    (∀ db1 rec, (∀ r ∈ db.recipes, r.id ≠ db.nextId) →
      createRecipe db conc req = (db1, .ok rec) →
      rec.prepTimeMinutes = req.prepTimeMinutes ∧
      rec.cookTimeMinutes = req.cookTimeMinutes ∧
      rec.totalTimeMinutes = sqlOptAdd req.prepTimeMinutes req.cookTimeMinutes) ∧
    (∀ id db1 rec, updateRecipe db conc id req = (db1, .ok rec) →
      rec.prepTimeMinutes = req.prepTimeMinutes ∧
      rec.cookTimeMinutes = req.cookTimeMinutes ∧
      rec.totalTimeMinutes = sqlOptAdd req.prepTimeMinutes req.cookTimeMinutes) := by
  constructor
  · intro db1 rec hfresh h
    cases htx : createRecipeTx db conc req with
    | error e0 => simp [createRecipe, htx] at h
    | ok txf =>
      simp only [createRecipe, htx, Prod.mk.injEq] at h
      obtain ⟨_, h2⟩ := h
      have hok := lookupRecipeRow_create_ok hfresh htx
      obtain ⟨_, _, _, _, h5, h6, h7⟩ := getRecipeByID_ok_fields hok h2
      exact ⟨h5, h6, h7⟩
  · intro id db1 rec h
    cases htx : updateRecipeTx db conc id req with
    | error e0 => simp [updateRecipe, htx] at h
    | ok txf =>
      simp only [updateRecipe, htx, Prod.mk.injEq] at h
      obtain ⟨_, h2⟩ := h
      obtain ⟨r0, hl⟩ := updateRecipeTx_ok_lookup htx
      have hupd := lookupRecipeRow_update_ok hl htx
      obtain ⟨_, _, _, _, h5, h6, h7⟩ := getRecipeByID_ok_fields hupd h2
      exact ⟨h5, h6, h7⟩

/-- Witness for C1 (amended) at concrete inputs: the create of
reqNullPrep on db0 and the update of recipe 1 of dbOne both return a
recipe whose total time is the SQL sum of the request times (absent
here, since prep is absent). -/
theorem C1_total_time_generated_witness :
    createRecipe db0 noWriters reqNullPrep = (dbNull, .ok recNull) ∧
    recNull.totalTimeMinutes = sqlOptAdd reqNullPrep.prepTimeMinutes reqNullPrep.cookTimeMinutes ∧
    updateRecipe dbOne noWriters 1 reqNullPrep = (dbOneUpd, .ok recOneUpd) ∧
    recOneUpd.totalTimeMinutes = sqlOptAdd reqNullPrep.prepTimeMinutes reqNullPrep.cookTimeMinutes :=
  ⟨by decide,
   ((C1_total_time_generated db0 noWriters reqNullPrep).1 dbNull recNull
      (by decide) (by decide)).2.2,
   by decide,
   ((C1_total_time_generated dbOne noWriters reqNullPrep).2 1 dbOneUpd recOneUpd
      (by decide)).2.2⟩

/-- C3: Update has full-replace semantics.  After a successful
Update(id, request) the recipe_ingredients, recipe_steps and recipe_tags
rows of the recipe are exactly the rows derived from the request: the
ingredient rows carry the request quantities, notes and sort orders in
order, the step rows are exactly the rows built from the request steps,
and the tag links number exactly the request tags — every previously
existing row of the recipe that is not in the request is gone. -/
theorem C3_update_full_replace (db : DB) (conc : ConcurrentWrites) (id : Nat)
    (req : RecipeRequest) (db1 : DB) (rec : Recipe)
    (h : updateRecipe db conc id req = (db1, .ok rec)) :
    (db1.recipeIngredients.filter (fun r => r.recipeId == id)).map
        (fun r => (r.quantity, r.notes, r.sortOrder)) =
      req.ingredients.map (fun q => (q.quantity, q.notes, q.sortOrder)) ∧
    db1.recipeSteps.filter (fun r => r.recipeId == id) = req.steps.map (mkStepRow id) ∧
    (db1.recipeTags.filter (fun r => r.recipeId == id)).length = req.tags.length := by
  cases htx : updateRecipeTx db conc id req with
  | error e0 => simp [updateRecipe, htx] at h
  | ok txf =>
    simp only [updateRecipe, htx, Prod.mk.injEq] at h
    obtain ⟨h1, _⟩ := h
    subst h1
    obtain ⟨_, addedI, addedT, hri, hmapI, hmemI, hsteps, htags, hlenT, hmemT⟩ :=
      updateRecipeTx_ok_spec htx
    have hnilI := filter_key_after_ne (fun r : RecipeIngredientRow => r.recipeId) id
      db.recipeIngredients
    have hnilS := filter_key_after_ne (fun r : RecipeStepRow => r.recipeId) id
      db.recipeSteps
    have hnilT := filter_key_after_ne (fun r : RecipeTagRow => r.recipeId) id
      db.recipeTags
    refine ⟨?_, ?_, ?_⟩
    · rw [hri, List.filter_append, hnilI, List.nil_append,
        List.filter_eq_self.mpr (fun a ha => by simp [hmemI a ha])]
      exact hmapI
    · rw [hsteps, List.filter_append, hnilS, List.nil_append]
      refine List.filter_eq_self.mpr (fun a ha => ?_)
      obtain ⟨q, _, h3⟩ := List.mem_map.mp ha
      subst h3
      simp [mkStepRow]
    · rw [htags, List.filter_append, hnilT, List.nil_append,
        List.filter_eq_self.mpr (fun a ha => by simp [hmemT a ha])]
      exact hlenT

/-- Witness for C3 at a concrete input: the one-recipe database dbOne is
updated with the Tart request (one ingredient, one step, one tag); the
post-state rows for recipe 1 are exactly the ones derived from that
request. -/
theorem C3_update_full_replace_witness :
    updateRecipe dbOne noWriters 1 reqTart = (dbTartUpd, .ok recTartUpd) ∧
    ((dbTartUpd.recipeIngredients.filter (fun r => r.recipeId == 1)).map
        (fun r => (r.quantity, r.notes, r.sortOrder)) =
      reqTart.ingredients.map (fun q => (q.quantity, q.notes, q.sortOrder)) ∧
    dbTartUpd.recipeSteps.filter (fun r => r.recipeId == 1) =
      reqTart.steps.map (mkStepRow 1) ∧
    (dbTartUpd.recipeTags.filter (fun r => r.recipeId == 1)).length =
      reqTart.tags.length) :=
  ⟨by decide,
   C3_update_full_replace dbOne noWriters 1 reqTart dbTartUpd recTartUpd (by decide)⟩

/-- C10: a successful Update leaves the recipe row's id and created_at
unchanged: the row stored under the updated id is exactly the old row
with the seven SET-list columns replaced and updated_at refreshed, so id
and created_at agree with the pre-state. -/
theorem C10_update_preserves_identity (db : DB) (conc : ConcurrentWrites) (id : Nat)
    (req : RecipeRequest) (db1 : DB) (rec : Recipe) (r0 : RecipeRow)
    (hl : lookupRecipeRow db id = some r0)
    (h : updateRecipe db conc id req = (db1, .ok rec)) :
    lookupRecipeRow db1 id = some (applyScalarUpdate req db.now r0) ∧
    (applyScalarUpdate req db.now r0).id = r0.id ∧
    (applyScalarUpdate req db.now r0).createdAt = r0.createdAt ∧
    (applyScalarUpdate req db.now r0).updatedAt = db.now ∧
    (applyScalarUpdate req db.now r0).title = req.title := by
  cases htx : updateRecipeTx db conc id req with
  | error e0 => simp [updateRecipe, htx] at h
  | ok txf =>
    simp only [updateRecipe, htx, Prod.mk.injEq] at h
    obtain ⟨h1, _⟩ := h
    subst h1
    exact ⟨lookupRecipeRow_update_ok hl htx, rfl, rfl, rfl, rfl⟩

/-- Witness for C10 at a concrete input: updating recipe 1 of dbOne
(created_at 50) with reqNullPrep keeps id 1 and created_at 50 while
refreshing updated_at to 100. -/
theorem C10_update_preserves_identity_witness :
    lookupRecipeRow dbOneUpd 1 = some (applyScalarUpdate reqNullPrep dbOne.now rowOne) ∧
    (applyScalarUpdate reqNullPrep dbOne.now rowOne).id = rowOne.id ∧
    (applyScalarUpdate reqNullPrep dbOne.now rowOne).createdAt = rowOne.createdAt ∧
    (applyScalarUpdate reqNullPrep dbOne.now rowOne).updatedAt = dbOne.now ∧
    (applyScalarUpdate reqNullPrep dbOne.now rowOne).title = reqNullPrep.title :=
  C10_update_preserves_identity dbOne noWriters 1 reqNullPrep dbOneUpd recOneUpd rowOne
    (by decide) (by decide)

/-- C4 counterexample: with the name salt just created by a concurrent
writer, the ingredient resolver does not re-read and return the existing
id — it fails with the wrapped uniqueness-violation error. -/
theorem C4_resolver_conflict_counterexample :
    findOrCreateIngredient db0 concSalt "salt" =
      .error (.wrapped "failed to create new ingredient salt"
        (.uniqueViolation "ingredients_name_key")) := by decide

/-- C4 (amended): for every reference kind, when the resolver misses on
lookup and its insert hits the uniqueness violation raised by a
concurrent writer of the same name, it surfaces the conflict as a
wrapped resolution failure (aborting the enclosing transaction); it does
not re-read the concurrently created row. -/
theorem C4_resolver_conflict (tx : DB) (conc : ConcurrentWrites) (name : String) :
    (lookupIngredientId tx name = none → name ∈ conc.ingredientNames →
      findOrCreateIngredient tx conc name =
        .error (.wrapped ("failed to create new ingredient " ++ name)
          (.uniqueViolation "ingredients_name_key"))) ∧
    (lookupUnitId tx name = none → name ∈ conc.unitNames →
      findOrCreateMeasurementUnit tx conc name =
        .error (.wrapped ("failed to create new measurement unit " ++ name)
          (.uniqueViolation "measurement_units_name_key"))) ∧
    (lookupTagId tx name = none → name ∈ conc.tagNames →
      findOrCreateTag tx conc name =
        .error (.wrapped ("failed to create new tag " ++ name)
          (.uniqueViolation "tags_name_key"))) := by
  refine ⟨fun hm hc => ?_, fun hm hc => ?_, fun hm hc => ?_⟩
  · simp [findOrCreateIngredient, hm, hc]
  · simp [findOrCreateMeasurementUnit, hm, hc]
  · simp [findOrCreateTag, hm, hc]

/-- Witness for C4 (amended) at a concrete input: on the empty database
with the name salt concurrently created in all three reference tables,
each resolver fails with its wrapped uniqueness-violation error. -/
theorem C4_resolver_conflict_witness :
    lookupIngredientId db0 "salt" = none ∧ "salt" ∈ concSalt.ingredientNames ∧
    findOrCreateMeasurementUnit db0 concSalt "salt" =
      .error (.wrapped "failed to create new measurement unit salt"
        (.uniqueViolation "measurement_units_name_key")) ∧
    findOrCreateTag db0 concSalt "salt" =
      .error (.wrapped "failed to create new tag salt"
        (.uniqueViolation "tags_name_key")) :=
  ⟨by decide, by decide,
   (C4_resolver_conflict db0 concSalt "salt").2.1 (by decide) (by decide),
   (C4_resolver_conflict db0 concSalt "salt").2.2 (by decide) (by decide)⟩

/-- C5: reference resolution is idempotent.  Whenever a resolver call
returns an id for a name, calling the same resolver again on the
resulting state returns the same id and leaves the state unchanged — no
duplicate reference row is created for the repeated name. -/
theorem C5_resolver_idempotent (db : DB) (conc : ConcurrentWrites) (name : String) :
    (∀ db1 i, findOrCreateIngredient db conc name = .ok (db1, i) →
      findOrCreateIngredient db1 conc name = .ok (db1, i)) ∧
    (∀ db1 i, findOrCreateMeasurementUnit db conc name = .ok (db1, i) →
      findOrCreateMeasurementUnit db1 conc name = .ok (db1, i)) ∧
    (∀ db1 i, findOrCreateTag db conc name = .ok (db1, i) →
      findOrCreateTag db1 conc name = .ok (db1, i)) := by
  refine ⟨?_, ?_, ?_⟩
  · intro db1 i h
    unfold findOrCreateIngredient at h
    split at h
    · rename_i j heq
      simp only [Except.ok.injEq, Prod.mk.injEq] at h
      obtain ⟨h1, h2⟩ := h
      subst h1
      subst h2
      unfold findOrCreateIngredient
      rw [heq]
    · rename_i heq
      split at h
      · exact Except.noConfusion h
      · simp only [Except.ok.injEq, Prod.mk.injEq] at h
        obtain ⟨h1, h2⟩ := h
        subst h1
        subst h2
        have hfind : List.find? (fun r : IngredientRow => r.name == name)
            db.ingredients = none := by
          unfold lookupIngredientId at heq
          cases hf : List.find? (fun r : IngredientRow => r.name == name) db.ingredients with
          | none => rfl
          | some x => rw [hf] at heq; exact Option.noConfusion heq
        have hlook : lookupIngredientId
            { db with ingredients := db.ingredients ++ [⟨db.nextId, name, none⟩],
                      nextId := db.nextId + 1 } name = some db.nextId := by
          unfold lookupIngredientId
          show (List.find? _ (db.ingredients ++ [⟨db.nextId, name, none⟩])).map _ = _
          rw [find?_append_of_none (List.find?_eq_none.mp hfind)]
          simp [List.find?]
        unfold findOrCreateIngredient
        rw [hlook]
  · intro db1 i h
    unfold findOrCreateMeasurementUnit at h
    split at h
    · rename_i j heq
      simp only [Except.ok.injEq, Prod.mk.injEq] at h
      obtain ⟨h1, h2⟩ := h
      subst h1
      subst h2
      unfold findOrCreateMeasurementUnit
      rw [heq]
    · rename_i heq
      split at h
      · exact Except.noConfusion h
      · simp only [Except.ok.injEq, Prod.mk.injEq] at h
        obtain ⟨h1, h2⟩ := h
        subst h1
        subst h2
        have hfind : List.find? (fun r : UnitRow => r.name == name) db.units = none := by
          unfold lookupUnitId at heq
          cases hf : List.find? (fun r : UnitRow => r.name == name) db.units with
          | none => rfl
          | some x => rw [hf] at heq; exact Option.noConfusion heq
        have hlook : lookupUnitId
            { db with units := db.units ++ [⟨db.nextId, name, none, .metric, none, none⟩],
                      nextId := db.nextId + 1 } name = some db.nextId := by
          unfold lookupUnitId
          show (List.find? _
            (db.units ++ [⟨db.nextId, name, none, .metric, none, none⟩])).map _ = _
          rw [find?_append_of_none (List.find?_eq_none.mp hfind)]
          simp [List.find?]
        unfold findOrCreateMeasurementUnit
        rw [hlook]
  · intro db1 i h
    unfold findOrCreateTag at h
    split at h
    · rename_i j heq
      simp only [Except.ok.injEq, Prod.mk.injEq] at h
      obtain ⟨h1, h2⟩ := h
      subst h1
      subst h2
      unfold findOrCreateTag
      rw [heq]
    · rename_i heq
      split at h
      · exact Except.noConfusion h
      · simp only [Except.ok.injEq, Prod.mk.injEq] at h
        obtain ⟨h1, h2⟩ := h
        subst h1
        subst h2
        have hfind : List.find? (fun r : TagRow => r.name == name) db.tags = none := by
          unfold lookupTagId at heq
          cases hf : List.find? (fun r : TagRow => r.name == name) db.tags with
          | none => rfl
          | some x => rw [hf] at heq; exact Option.noConfusion heq
        have hlook : lookupTagId
            { db with tags := db.tags ++ [⟨db.nextId, name, none, none⟩],
                      nextId := db.nextId + 1 } name = some db.nextId := by
          unfold lookupTagId
          show (List.find? _ (db.tags ++ [⟨db.nextId, name, none, none⟩])).map _ = _
          rw [find?_append_of_none (List.find?_eq_none.mp hfind)]
          simp [List.find?]
        unfold findOrCreateTag
        rw [hlook]

/-- Witness for C5 at a concrete input: resolving salt twice on the
empty database returns id 1 both times, and the second call leaves the
state of the first call unchanged. -/
theorem C5_resolver_idempotent_witness :
    findOrCreateIngredient db0 noWriters "salt" =
      .ok ({ db0 with ingredients := [⟨1, "salt", none⟩], nextId := 2 }, 1) ∧
    findOrCreateIngredient
        { db0 with ingredients := [⟨1, "salt", none⟩], nextId := 2 } noWriters "salt" =
      .ok ({ db0 with ingredients := [⟨1, "salt", none⟩], nextId := 2 }, 1) :=
  ⟨by decide,
   (C5_resolver_idempotent db0 noWriters "salt").1
     { db0 with ingredients := [⟨1, "salt", none⟩], nextId := 2 } 1 (by decide)⟩

/-- C8: a measurement-unit name that does not yet exist is created with
its measurement system defaulted to metric; the insert supplies only the
name, every other optional column stays NULL. -/
theorem C8_unit_default_metric (db : DB) (conc : ConcurrentWrites) (name : String)
    (db1 : DB) (uid : Nat)
    (hm : lookupUnitId db name = none)
    (h : findOrCreateMeasurementUnit db conc name = .ok (db1, uid)) :
    db1.units = db.units ++ [⟨uid, name, none, .metric, none, none⟩] := by
  simp only [findOrCreateMeasurementUnit, hm] at h
  split at h
  · exact Except.noConfusion h
  · simp only [Except.ok.injEq, Prod.mk.injEq] at h
    obtain ⟨h1, h2⟩ := h
    subst h1
    subst h2
    rfl

/-- Witness for C8 at a concrete input: resolving the fresh name gram on
the empty database appends exactly one unit row with system metric. -/
theorem C8_unit_default_metric_witness :
    lookupUnitId db0 "gram" = none ∧
    findOrCreateMeasurementUnit db0 noWriters "gram" = .ok (db0unit, 1) ∧
    db0unit.units = db0.units ++ [⟨1, "gram", none, .metric, none, none⟩] :=
  ⟨by decide, by decide,
   C8_unit_default_metric db0 noWriters "gram" db0unit 1 (by decide) (by decide)⟩

/-- C6: for an id matching no recipe row, get fails with NotFound,
update fails with NotFound leaving the state untouched, and delete fails
with NotFound because zero rows were affected; for an existing id, get
succeeds, update never fails with a NotFound-classified error, and
delete succeeds. -/
theorem C6_notfound_behaviour (db : DB) (conc : ConcurrentWrites)
    (req : RecipeRequest) (id : Nat) :
    (lookupRecipeRow db id = none →
      getRecipeByID db id = .error (.recipeNotFound id) ∧
      updateRecipe db conc id req = (db, .error (.recipeNotFoundForUpdate id)) ∧
      deleteRecipe db id = (db, .error (.recipeNotFoundForDeletion id))) ∧
    (∀ r0, lookupRecipeRow db id = some r0 →
      (getRecipeByID db id).isOk = true ∧
      (∀ db1 e, updateRecipe db conc id req = (db1, .error e) → e.isNotFound = false) ∧
      (deleteRecipe db id).2 = .ok ()) := by
  constructor
  · intro hm
    have hm2 : List.find? (fun r : RecipeRow => r.id == id) db.recipes = none := hm
    refine ⟨?_, ?_, ?_⟩
    · simp [getRecipeByID, hm]
    · simp [updateRecipe, updateRecipeTx, hm]
    · have hany : (db.recipes.any fun r => r.id == id) = false := by
        rw [Bool.eq_false_iff]
        intro hc
        obtain ⟨x, hx, hpx⟩ := List.any_eq_true.mp hc
        exact List.find?_eq_none.mp hm2 x hx hpx
      simp [deleteRecipe, hany]
  · intro r0 hr
    have hr2 : List.find? (fun r : RecipeRow => r.id == id) db.recipes = some r0 := hr
    refine ⟨getRecipeByID_isOk_of_lookup hr, ?_, ?_⟩
    · intro db1 e h
      cases htx : updateRecipeTx db conc id req with
      | error e0 =>
        simp only [updateRecipe, htx, Prod.mk.injEq, Except.error.injEq] at h
        obtain ⟨_, h2⟩ := h
        subst h2
        exact updateRecipeTx_error_shape hr htx
      | ok txf =>
        simp only [updateRecipe, htx, Prod.mk.injEq] at h
        obtain ⟨_, h2⟩ := h
        have hupd := lookupRecipeRow_update_ok hr htx
        simp [getRecipeByID, hupd] at h2
    · have hany : (db.recipes.any fun r => r.id == id) = true := by
        rw [List.any_eq_true]
        refine ⟨r0, List.mem_of_find?_eq_some hr2, ?_⟩
        have h3 := List.find?_some hr2
        simpa using h3
      simp [deleteRecipe, hany]

/-- Witness for C6 at concrete inputs: id 5 matches nothing in db0, so
get, update and delete all fail with their NotFound errors there; id 1
exists in dbOne, so get succeeds, delete succeeds, and the error of a
failing update (duplicate step numbers) is not classified NotFound. -/
theorem C6_notfound_behaviour_witness :
    getRecipeByID db0 5 = .error (.recipeNotFound 5) ∧
    updateRecipe db0 noWriters 5 reqTart = (db0, .error (.recipeNotFoundForUpdate 5)) ∧
    deleteRecipe db0 5 = (db0, .error (.recipeNotFoundForDeletion 5)) ∧
    (getRecipeByID dbOne 1).isOk = true ∧
    StoreErr.isNotFound stepConflictErr = false ∧
    (deleteRecipe dbOne 1).2 = .ok () := by
  obtain ⟨hg, hu, hd⟩ := (C6_notfound_behaviour db0 noWriters reqTart 5).1 (by decide)
  obtain ⟨hg2, hu2, hd2⟩ :=
    (C6_notfound_behaviour dbOne noWriters reqDupSteps 1).2 rowOne (by decide)
  exact ⟨hg, hu, hd, hg2, hu2 dbOne stepConflictErr (by decide), hd2⟩

/-- C7: the assembler returns ingredients ordered by sort order
ascending, steps ordered by step number ascending and tags ordered by
tag name ascending, and each assembled ingredient carries an embedded
unit snapshot exactly when its junction row links a unit (under
referential integrity of unit_id). -/
theorem C7_assembler_ordering (db : DB) (id : Nat) (rec : Recipe)
    (hfk : ∀ r ∈ db.recipeIngredients,
      r.unitId.isSome = (r.unitId.bind (lookupUnitRow db)).isSome)
    (h : getRecipeByID db id = .ok rec) :
    rec.ingredients.Pairwise (fun a b => a.sortOrder ≤ b.sortOrder) ∧
    rec.steps.Pairwise (fun a b => a.stepNumber ≤ b.stepNumber) ∧
    rec.tags.Pairwise (fun a b => strLe a.name b.name = true) ∧
    ∀ ai ∈ rec.ingredients, ∃ r ∈ db.recipeIngredients,
      r.recipeId = id ∧ ai.sortOrder = r.sortOrder ∧ ai.unit.isSome = r.unitId.isSome := by
  cases hl : lookupRecipeRow db id with
  | none => simp [getRecipeByID, hl] at h
  | some r =>
    simp only [getRecipeByID, hl, Except.ok.injEq] at h
    subst h
    refine ⟨?_, ?_, ?_, ?_⟩
    · refine List.Pairwise.imp (fun hab => of_decide_eq_true hab)
        (pairwise_sortBy ?_ ?_ _)
      · intro a b c h1 h2
        exact decide_eq_true (le_trans (of_decide_eq_true h1) (of_decide_eq_true h2))
      · intro a b
        rcases le_total a.sortOrder b.sortOrder with h1 | h1
        · exact Or.inl (decide_eq_true h1)
        · exact Or.inr (decide_eq_true h1)
    · refine List.Pairwise.imp (fun hab => of_decide_eq_true hab)
        (pairwise_sortBy ?_ ?_ _)
      · intro a b c h1 h2
        exact decide_eq_true (le_trans (of_decide_eq_true h1) (of_decide_eq_true h2))
      · intro a b
        rcases le_total a.stepNumber b.stepNumber with h1 | h1
        · exact Or.inl (decide_eq_true h1)
        · exact Or.inr (decide_eq_true h1)
    · show (sortBy (fun a b : AssembledTag => strLe a.name b.name) _).Pairwise
        (fun a b : AssembledTag => strLe a.name b.name = true)
      exact pairwise_sortBy
        (fun (a b c : AssembledTag) h1 h2 => strLe_trans a.name b.name c.name h1 h2)
        (fun (a b : AssembledTag) => strLe_total a.name b.name) _
    · intro ai hai
      have hai2 := (mem_sortBy _ ai _).mp hai
      obtain ⟨rrow, hmem, hasm⟩ := List.mem_filterMap.mp hai2
      obtain ⟨hmem2, hpred⟩ := List.mem_filter.mp hmem
      unfold assembleIngredient at hasm
      cases hlo : lookupIngredientRow db rrow.ingredientId with
      | none => rw [hlo] at hasm; exact Option.noConfusion hasm
      | some ing =>
        rw [hlo] at hasm
        simp only [Option.map_some', Option.some.injEq] at hasm
        subst hasm
        refine ⟨rrow, hmem2, by simpa using hpred, rfl, ?_⟩
        show ((rrow.unitId.bind (lookupUnitRow db)).map _).isSome = rrow.unitId.isSome
        rw [Option.isSome_map']
        exact (hfk rrow hmem2).symm

/-- Witness for C7 at a concrete input: assembling recipe 1 of dbSeven
(junction rows stored out of order) yields ingredients sorted by sort
order, steps sorted by step number, tags sorted by name, with the unit
snapshot present exactly on the junction row that links one. -/
theorem C7_assembler_ordering_witness :
    getRecipeByID dbSeven 1 = .ok recSeven ∧
    recSeven.ingredients.Pairwise (fun a b => a.sortOrder ≤ b.sortOrder) ∧
    recSeven.steps.Pairwise (fun a b => a.stepNumber ≤ b.stepNumber) ∧
    recSeven.tags.Pairwise (fun a b => strLe a.name b.name = true) :=
  ⟨by decide,
   (C7_assembler_ordering dbSeven 1 recSeven (by decide) (by decide)).1,
   (C7_assembler_ordering dbSeven 1 recSeven (by decide) (by decide)).2.1,
   (C7_assembler_ordering dbSeven 1 recSeven (by decide) (by decide)).2.2.1⟩

theorem contains_notFound_tail (A T Z : List Char) :
    containsChars ("not found").data (A ++ (T ++ (' ' :: (("not found").data ++ Z)))) =
      true := by
  have h2 := containsChars_of_append ("not found").data ((A ++ T) ++ [' ']) Z
  simpa [List.append_assoc] using h2

/-- C9 (amended): NotFound errors are distinguishable at the boundary —
their message contains the text "not found" and the handlers map them to
the 404 outcome — but a uniqueness-conflict error carries no distinct
classification: the handlers map it, exactly like a generic storage
fault, to the 500 server-error outcome. -/
theorem C9_error_classification (id : Nat) :
    handlerStatus (.recipeNotFound id) = 404 ∧
    handlerStatus (.recipeNotFoundForUpdate id) = 404 ∧
    handlerStatus (.recipeNotFoundForDeletion id) = 404 ∧
    handlerStatus (.queryFault "connection reset by peer") = 500 ∧
    handlerStatus stepConflictErr = 500 ∧
    createHandlerStatus stepConflictErr =
      createHandlerStatus (.queryFault "connection reset by peer") := by
  refine ⟨?_, ?_, ?_, by decide, by decide, rfl⟩
  · have hc : strContains (StoreErr.message (.recipeNotFound id)) "not found" = true := by
      unfold StoreErr.message strContains
      rw [String.data_append, String.data_append]
      have hd : (" not found").data = ' ' :: (("not found").data ++ []) := by decide
      rw [hd]
      exact contains_notFound_tail ("recipe with ID ").data (toString id).data []
    simp [handlerStatus, hc]
  · have hc : strContains (StoreErr.message (.recipeNotFoundForUpdate id))
        "not found" = true := by
      unfold StoreErr.message strContains
      rw [String.data_append, String.data_append]
      have hd : (" not found for update").data =
          ' ' :: (("not found").data ++ (" for update").data) := by decide
      rw [hd]
      exact contains_notFound_tail ("recipe with ID ").data (toString id).data
        (" for update").data
    simp [handlerStatus, hc]
  · have hc : strContains (StoreErr.message (.recipeNotFoundForDeletion id))
        "not found" = true := by
      unfold StoreErr.message strContains
      rw [String.data_append, String.data_append]
      have hd : (" not found for deletion").data =
          ' ' :: (("not found").data ++ (" for deletion").data) := by decide
      rw [hd]
      exact contains_notFound_tail ("recipe with ID ").data (toString id).data
        (" for deletion").data
    simp [handlerStatus, hc]

/-- C9 counterexample: the uniqueness-conflict error a failing create
actually produces is classified exactly like a generic storage fault —
both are mapped to the 500 outcome by the boundary handlers, so conflict
errors are not distinguishable from generic storage faults. -/
theorem C9_error_classification_counterexample :
    (createRecipe db0 noWriters reqDupSteps).2 = .error stepConflictErr ∧
    handlerStatus stepConflictErr = handlerStatus (.queryFault "connection reset by peer") ∧
    createHandlerStatus stepConflictErr =
      createHandlerStatus (.queryFault "connection reset by peer") :=
  ⟨by decide, by decide, rfl⟩

end GoRecipes
